import Mathlib

/-!
A verification development for the Uniswap V3 position-analysis pipeline
(process_positions.py, process_mint_burn.py, process_burn.py,
analyze_position_creators.py). The Python code is shallowly embedded:
dictionaries of tagged values become structures with optional fields, Python
floats are modelled as exact rationals, and the one float behaviour the code
itself handles — OverflowError when an out-of-range integer is converted to a
float — is modelled explicitly through an Except monad, with the range bound
2 ^ 1024 of an IEEE-754 double. Rounding and underflow of floats are not
modelled. Computations that may raise an uncaught Python exception are
Except-valued; a caught exception is resolved at its handler, exactly where
the source catches it.
-/

/-- Numeric value of a decimal digit character; none on a non-digit. -/
def digitVal (c : Char) : Option Nat :=
  if c.isDigit then some (c.toNat - 48) else none

/-- Folds decimal digits most-significant-first into a number; fails on any
non-digit. An empty list yields 0; every use site rejects empty input before
calling. -/
def parseNatDigits (cs : List Char) : Option Nat :=
  cs.foldl (fun acc c =>
    match acc, digitVal c with
    | some n, some d => some (10 * n + d)
    | _, _ => none) (some 0)

/-- Models the Python builtin int() applied to a string: an optional sign
followed by decimal digits. (Python additionally strips surrounding
whitespace and accepts underscore digit grouping; no claim exercises those
forms.) Returns none exactly where int() raises ValueError. -/
def pyIntOfString (s : String) : Option Int :=
  match s.data with
  | [] => none
  | c :: rest =>
    if c = '+' then
      if rest = [] then none else (parseNatDigits rest).map (fun n => (n : Int))
    else if c = '-' then
      if rest = [] then none else (parseNatDigits rest).map (fun n => -(n : Int))
    else
      (parseNatDigits (c :: rest)).map (fun n => (n : Int))

/-- Horner value of a most-significant-first digit list, for stating what a
numeric string denotes. -/
def natVal (cs : List Char) : Nat :=
  cs.foldl (fun acc c => 10 * acc + (c.toNat - 48)) 0

/-- Smallest magnitude at which CPython raises OverflowError when an integer
is converted to a float: the IEEE-754 double range bound. Floats themselves
are modelled as exact rationals. -/
def maxFloat : ℚ := 2 ^ 1024

/-- Absolute value written with an explicit sign test, so that concrete
instances evaluate by simp and norm_num. -/
def qAbs (q : ℚ) : ℚ := if q < 0 then -q else q

theorem qAbs_eq_abs (q : ℚ) : qAbs q = |q| := by
  unfold qAbs
  rcases lt_or_le q 0 with h | h
  · rw [if_pos h, abs_of_neg h]
  · rw [if_neg (not_lt.mpr h), abs_of_nonneg h]

/-- The Python exception classes the modelled code can raise. -/
inductive PyErr where
  | overflow
  | valueError
deriving DecidableEq

instance {ε α : Type} [DecidableEq ε] [DecidableEq α] : DecidableEq (Except ε α) := fun x y =>
  match x, y with
  | .ok a, .ok b =>
    if h : a = b then .isTrue (by rw [h]) else .isFalse (fun hc => h (Except.noConfusion hc id))
  | .ok _, .error _ => .isFalse (fun hc => Except.noConfusion hc)
  | .error _, .ok _ => .isFalse (fun hc => Except.noConfusion hc)
  | .error e, .error f =>
    if h : e = f then .isTrue (by rw [h]) else .isFalse (fun hc => h (Except.noConfusion hc id))

/-- Models convert_amount of process_positions.py (lines 61-67) and
process_mint_burn.py (lines 80-86): parse the raw amount with int() —
ValueError on a malformed string and TypeError on None are caught and give
0.0 — then divide by 10 to the power decimals. A true division whose
quotient magnitude reaches the float range bound raises OverflowError, which
the except clause of the source does not list, so it propagates. -/
def convert_amount (raw_amount : Option String) (decimals : Int) : Except PyErr ℚ :=
  match raw_amount.bind pyIntOfString with
  | none => .ok 0
  | some amount_int =>
    if 0 ≤ decimals then
      let q : ℚ := (amount_int : ℚ) / 10 ^ decimals.toNat
      if maxFloat ≤ qAbs q then .error .overflow else .ok q
    else
      if maxFloat ≤ qAbs (amount_int : ℚ) then .error .overflow
      else .ok ((amount_int : ℚ) / ((10 : ℚ) ^ (-decimals).toNat)⁻¹)

/-- A Python numeric value that is either an int or a float; 10 ** e yields an
int for a non-negative exponent and a float otherwise. -/
inductive PyNum where
  | intVal (n : Int)
  | floatVal (q : ℚ)

/-- Models the Python float power b ** e for a nonzero float base and int
exponent: OverflowError when the magnitude of the result reaches the float
range bound (CPython reports a range error there); the value itself is exact. -/
def pyFloatPow (b : ℚ) (e : Int) : Except PyErr ℚ :=
  let v : ℚ := if 0 ≤ e then b ^ e.toNat else (b ^ (-e).toNat)⁻¹
  if maxFloat ≤ qAbs v then .error .overflow else .ok v

/-- Models the Python power 10 ** e on ints: an int for a non-negative
exponent, a float otherwise. -/
def pyPow10 (e : Int) : PyNum :=
  if 0 ≤ e then .intVal (10 ^ e.toNat) else .floatVal ((10 ^ (-e).toNat : ℚ))⁻¹

/-- Models a Python float times a Python number: an int operand is first
converted to a float, raising OverflowError when it is out of range; a float
times a float never raises. -/
def pyMulFloat (a : ℚ) : PyNum → Except PyErr ℚ
  | .intVal n => if maxFloat ≤ qAbs (n : ℚ) then .error .overflow else .ok (a * n)
  | .floatVal q => .ok (a * q)

/-- The body of the try block of calculate_price_from_tick: compute
1.0001 ** tick, then 10 ** (token0_decimals - token1_decimals), then their
product. The float literal 1.0001 is modelled by the exact rational it
denotes in the source text. -/
def price_from_tick_checked (tick token0_decimals token1_decimals : Int) :
    Except PyErr ℚ := do
  let price_unadjusted ← pyFloatPow (10001 / 10000) tick
  let decimal_adjustment := pyPow10 (token0_decimals - token1_decimals)
  pyMulFloat price_unadjusted decimal_adjustment

/-- Models calculate_price_from_tick of process_positions.py (lines 70-84) and
process_mint_burn.py (lines 89-103): the try body with ValueError, TypeError
and OverflowError caught and mapped to 0.0. -/
def calculate_price_from_tick (tick token0_decimals token1_decimals : Int) : ℚ :=
  match price_from_tick_checked tick token0_decimals token1_decimals with
  | .ok v => v
  | .error _ => 0

/-- An insertion-ordered map with string keys, modelling a Python dict. -/
def PyDict (α : Type) : Type := List (String × α)

/-- Lookup in a Python dict (first matching key; construction keeps keys
unique). -/
def dictLookup {α : Type} : PyDict α → String → Option α
  | [], _ => none
  | (k', v) :: m, k => if k' = k then some v else dictLookup m k

/-- Assignment d[k] = v on a Python dict: overwrite in place when the key is
present, append otherwise. -/
def dictUpsert {α : Type} : PyDict α → String → α → PyDict α
  | [], k, v => [(k, v)]
  | (k', v') :: m, k, v =>
    if k' = k then (k', v) :: m else (k', v') :: dictUpsert m k v

/-- Keys of a Python dict, in insertion order. -/
def dictKeys {α : Type} (m : PyDict α) : List String := m.map Prod.fst

/-- First-some choice on options, for stating that later entries win. -/
def optOr {α : Type} : Option α → Option α → Option α
  | some v, _ => some v
  | none, o => o

theorem dictLookup_upsert_self {α : Type} (m : PyDict α) (k : String) (v : α) :
    dictLookup (dictUpsert m k v) k = some v := by
  induction m with
  | nil => simp [dictUpsert, dictLookup]
  | cons p m ih =>
    by_cases h : p.1 = k
    · simp [dictUpsert, h, dictLookup]
    · simp [dictUpsert, h, dictLookup, ih]

theorem dictLookup_upsert_ne {α : Type} (m : PyDict α) (k a : String) (v : α)
    (h : k ≠ a) : dictLookup (dictUpsert m k v) a = dictLookup m a := by
  induction m with
  | nil => simp [dictUpsert, dictLookup, h]
  | cons p m ih =>
    by_cases hp : p.1 = k
    · subst hp
      simp [dictUpsert, dictLookup, h]
    · simp [dictUpsert, hp, dictLookup, ih]

theorem dictKeys_upsert {α : Type} (m : PyDict α) (k : String) (v : α) :
    dictKeys (dictUpsert m k v) =
      if (dictLookup m k).isSome then dictKeys m else dictKeys m ++ [k] := by
  induction m with
  | nil => simp [dictUpsert, dictKeys, dictLookup]
  | cons p m ih =>
    by_cases h : p.1 = k
    · simp [dictUpsert, h, dictKeys, dictLookup]
    · have hstep : dictKeys (dictUpsert (p :: m) k v) = p.1 :: dictKeys (dictUpsert m k v) := by
        simp [dictUpsert, h, dictKeys]
      have hl : dictLookup (p :: m) k = dictLookup m k := by
        simp [dictLookup, h]
      rw [hstep, ih, hl]
      by_cases hs : (dictLookup m k).isSome <;> simp [hs, dictKeys]

theorem dictLookup_eq_none_iff {α : Type} (m : PyDict α) (k : String) :
    dictLookup m k = none ↔ k ∉ dictKeys m := by
  induction m with
  | nil => simp [dictLookup, dictKeys]
  | cons p m ih =>
    by_cases h : p.1 = k
    · simp [dictLookup, h, dictKeys]
    · simp [dictLookup, h, dictKeys, ih, Ne.symm h]

/-- Python truthiness of an optional string: None and the empty string are
falsy, any other string is truthy. -/
def pyTruthyStr : Option String → Bool
  | none => false
  | some s => if s = "" then false else true

/-- Lookup through an optional key: models d.get(k, default) where the key
itself may be None, which is always a miss. -/
def dictGetOpt {α : Type} (m : PyDict α) : Option String → Option α
  | some k => dictLookup m k
  | none => none

/-- Models the Python builtin float() on plain decimal literals: optional
sign, digits, optional fractional part. (Python accepts further forms —
exponents, inf, nan, surrounding whitespace — which no claim exercises.)
Returns none where float() raises ValueError. -/
def pyFloatOfString (s : String) : Option ℚ :=
  match s.data with
  | [] => none
  | c :: rest =>
    let body := if c = '+' ∨ c = '-' then rest else c :: rest
    let sign : ℚ := if c = '-' then -1 else 1
    match body.splitOn '.' with
    | [ip] =>
      if ip = [] then none else (parseNatDigits ip).map (fun n => sign * n)
    | [ip, fp] =>
      if ip = [] ∧ fp = [] then none
      else
        match parseNatDigits ip, parseNatDigits fp with
        | some i, some f => some (sign * ((i : ℚ) + (f : ℚ) / 10 ^ fp.length))
        | _, _ => none
    | _ => none

/-- The Currency sub-record of a currency-transfer record. -/
structure CurrencyInfo where
  SmartContract : Option String := none
  Decimals : Option Int := none
  Symbol : Option String := none
  Name : Option String := none

/-- The Transfer sub-record wrapping the currency. -/
structure TransferBody where
  Currency : CurrencyInfo := {}

/-- One currency-transfer record of the decimals response. -/
structure TransferEntry where
  Transfer : TransferBody := {}

/-- The per-token entry stored by the Decimal Resolver. -/
structure TokenInfo where
  decimals : Int
  symbol : Option String
  name : Option String
deriving DecidableEq

/-- One iteration of the loop of create_token_decimals_lookup: a record with
a truthy contract address and a present decimal count is entered, later
records overwriting earlier ones; anything else is skipped. -/
def decimals_lookup_step (lookup : PyDict TokenInfo) (transfer : TransferEntry) :
    PyDict TokenInfo :=
  let currency := transfer.Transfer.Currency
  match currency.SmartContract, currency.Decimals with
  | some address, some decimals =>
    if address = "" then lookup
    else dictUpsert lookup address ⟨decimals, currency.Symbol, currency.Name⟩
  | _, _ => lookup

/-- Models create_token_decimals_lookup of process_positions.py (lines
37-58). The navigation to data.EVM.Transfers with defaulting gets is
modelled by taking the transfer list itself; a missing envelope is the empty
list. -/
def create_token_decimals_lookup (transfers : List TransferEntry) : PyDict TokenInfo :=
  transfers.foldl decimals_lookup_step []

/-- The entry a single record contributes for identifier a: its
{decimals, symbol, name} when it carries a with a decimal count present. -/
def decimalsContribution (t : TransferEntry) (a : String) : Option TokenInfo :=
  match t.Transfer.Currency.SmartContract, t.Transfer.Currency.Decimals with
  | some address, some decimals =>
    if address = a then some ⟨decimals, t.Transfer.Currency.Symbol, t.Transfer.Currency.Name⟩
    else none
  | _, _ => none

/-- The Decimal Resolver output as the spec words it: for an identifier a,
the {decimals, symbol, name} of the last input record carrying a with a
decimal count present. -/
def lastDecimalsEntry (transfers : List TransferEntry) (a : String) : Option TokenInfo :=
  (transfers.filterMap (fun t => decimalsContribution t a)).getLast?

/-- A decoded tagged value; the modelled extraction sites read only the
address and bigInteger variants, so only those are carried. -/
structure TaggedValue where
  address : Option String := none
  bigInteger : Option String := none

/-- One positional argument of a decoded call. -/
structure Argument where
  Name : Option String := none
  Index : Option Int := none
  Value : TaggedValue := {}

/-- One named return value of a decoded call. -/
structure ReturnItem where
  Name : Option String := none
  Value : TaggedValue := {}

/-- Transaction metadata of a decoded call. -/
structure TransactionMeta where
  Hash : Option String := none
  From : Option String := none
  To : Option String := none
  ValueInUSD : Option String := none
  Time : Option String := none

/-- Block metadata of a decoded call. -/
structure BlockMeta where
  Number : Option Int := none
  Time : Option String := none

/-- One decoded call record. SignatureName models Call.Signature.Name. -/
structure Call where
  Arguments : List Argument := []
  Returns : List ReturnItem := []
  Transaction : TransactionMeta := {}
  Block : BlockMeta := {}
  SignatureName : Option String := none

/-- The position parameters collected by parse_mint_burn_arguments. -/
structure MintParams where
  token0 : Option String := none
  token1 : Option String := none
  fee : Option String := none
  tickLower : Option Int := none
  tickUpper : Option Int := none
  amount0Desired : Option String := none
  amount0Min : Option String := none
  amount1Desired : Option String := none
  amount1Min : Option String := none
  recipient : Option String := none
  deadline : Option String := none

/-- One iteration of the loop of parse_mint_burn_arguments: the elif chain on
the argument index (missing index defaults to -1). The int() casts of the
tick values at indices 3 and 4 are not guarded in the source, so a malformed
big-integer string there raises ValueError. -/
def mint_arg_step (params : MintParams) (arg : Argument) : Except PyErr MintParams :=
  let index := arg.Index.getD (-1)
  let addr := arg.Value.address
  let big := arg.Value.bigInteger
  if index = 0 ∧ addr.isSome then .ok { params with token0 := addr }
  else if index = 1 ∧ addr.isSome then .ok { params with token1 := addr }
  else if index = 2 ∧ big.isSome then .ok { params with fee := big }
  else if index = 3 ∧ big.isSome then
    match big.bind pyIntOfString with
    | some n => .ok { params with tickLower := some n }
    | none => .error .valueError
  else if index = 4 ∧ big.isSome then
    match big.bind pyIntOfString with
    | some n => .ok { params with tickUpper := some n }
    | none => .error .valueError
  else if index = 5 ∧ big.isSome then .ok { params with amount0Desired := big }
  else if index = 6 ∧ big.isSome then .ok { params with amount0Min := big }
  else if index = 7 ∧ big.isSome then .ok { params with amount1Desired := big }
  else if index = 8 ∧ big.isSome then .ok { params with amount1Min := big }
  else if index = 9 ∧ addr.isSome then .ok { params with recipient := addr }
  else if index = 10 ∧ big.isSome then .ok { params with deadline := big }
  else .ok params

/-- Models parse_mint_burn_arguments of process_mint_burn.py (lines 33-77). -/
def parse_mint_burn_arguments (arguments : List Argument) : Except PyErr MintParams :=
  arguments.foldlM mint_arg_step {}

/-- A token descriptor of a normalized event. -/
structure TokenOut where
  address : Option String
  symbol : Option String
  decimals : Int

/-- The converted amounts of a mint event. -/
structure AmountsOut where
  amount0_desired : ℚ
  amount1_desired : ℚ
  amount0_min : ℚ
  amount1_min : ℚ

/-- Tick bounds of a normalized event. -/
structure TickBand where
  lower : Option Int
  upper : Option Int

/-- Derived price bounds of a normalized event. -/
structure PriceBand where
  lower : Option ℚ
  upper : Option ℚ

/-- One processed mint event (the event_data dict of process_mint_burn.py,
lines 220-260; the lowercase re-keying of the transaction and block copies
is cosmetic and the metadata records are reused as they are). -/
structure MintEvent where
  event_type : String
  token0 : TokenOut
  token1 : TokenOut
  amounts : AmountsOut
  fee : Option String
  ticks : TickBand
  price_band : PriceBand
  recipient : Option String
  deadline : Option String
  transaction : TransactionMeta
  block : BlockMeta

/-- The per-record body of the processing loop of
process_mint_events_with_decimals (process_mint_burn.py, lines 171-262):
parse the arguments, skip the record when either token address is missing or
empty, resolve decimals with the 18/Unknown fallbacks, convert the four
amounts and derive the price band. Returns none for a skipped record. -/
def process_one_mint (token_decimals : PyDict TokenInfo) (call : Call) :
    Except PyErr (Option MintEvent) := do
  let event_type := call.SignatureName.getD "mint"
  let params ← parse_mint_burn_arguments call.Arguments
  let token0_address := params.token0
  let token1_address := params.token1
  if pyTruthyStr token0_address = false ∨ pyTruthyStr token1_address = false then
    return none
  let token0_info := dictGetOpt token_decimals token0_address
  let token1_info := dictGetOpt token_decimals token1_address
  let token0_symbol := match token0_info with
    | some info => info.symbol
    | none => some "Unknown"
  let token1_symbol := match token1_info with
    | some info => info.symbol
    | none => some "Unknown"
  let token0_decimals := match token0_info with
    | some info => info.decimals
    | none => 18
  let token1_decimals := match token1_info with
    | some info => info.decimals
    | none => 18
  let amount0_desired ← convert_amount (some (params.amount0Desired.getD "0")) token0_decimals
  let amount1_desired ← convert_amount (some (params.amount1Desired.getD "0")) token1_decimals
  let tick_lower := params.tickLower
  let tick_upper := params.tickUpper
  let price_band : PriceBand :=
    match tick_lower, tick_upper with
    | some tl, some tu =>
      ⟨some (calculate_price_from_tick tl token0_decimals token1_decimals),
       some (calculate_price_from_tick tu token0_decimals token1_decimals)⟩
    | _, _ => ⟨none, none⟩
  let amount0_min ← convert_amount (some (params.amount0Min.getD "0")) token0_decimals
  let amount1_min ← convert_amount (some (params.amount1Min.getD "0")) token1_decimals
  return some
    { event_type := event_type
      token0 := ⟨token0_address, token0_symbol, token0_decimals⟩
      token1 := ⟨token1_address, token1_symbol, token1_decimals⟩
      amounts := ⟨amount0_desired, amount1_desired, amount0_min, amount1_min⟩
      fee := params.fee
      ticks := ⟨tick_lower, tick_upper⟩
      price_band := price_band
      recipient := params.recipient
      deadline := params.deadline
      transaction := call.Transaction
      block := call.Block }

/-- Models the processing loop of process_mint_events_with_decimals
(process_mint_burn.py, lines 167-276): records are processed in order, a
skipped record contributes nothing, and an uncaught exception aborts the
whole run. Fetching, printing and the surrounding response envelope are the
external collaborators and are not part of the core. -/
def process_mint_events_with_decimals (token_decimals : PyDict TokenInfo) :
    List Call → Except PyErr (List MintEvent)
  | [] => .ok []
  | call :: rest => do
    let head ← process_one_mint token_decimals call
    let tail ← process_mint_events_with_decimals token_decimals rest
    match head with
    | some event => .ok (event :: tail)
    | none => .ok tail

/-- The mutable locals of the returns loop of process_positions_with_decimals
(process_positions.py, lines 157-190). -/
structure PosReturnsAcc where
  token0_address : Option String := none
  token1_address : Option String := none
  liquidity : Option String := none
  fee : Option String := none
  tick_lower : Option Int := none
  tick_upper : Option Int := none

/-- One iteration of the returns loop of process_positions_with_decimals:
name-keyed extraction of token0, token1, liquidity, fee and the tick bounds.
The int() casts of the tick values are not guarded in the source, so a
malformed big-integer string raises ValueError. -/
def pos_return_step (acc : PosReturnsAcc) (item : ReturnItem) : Except PyErr PosReturnsAcc :=
  let name := item.Name.getD ""
  let addr := item.Value.address
  let big := item.Value.bigInteger
  if name = "token0" ∧ addr.isSome then .ok { acc with token0_address := addr }
  else if name = "token1" ∧ addr.isSome then .ok { acc with token1_address := addr }
  else if name = "liquidity" ∧ big.isSome then .ok { acc with liquidity := big }
  else if name = "fee" ∧ big.isSome then .ok { acc with fee := big }
  else if name = "tickLower" ∧ big.isSome then
    match big.bind pyIntOfString with
    | some n => .ok { acc with tick_lower := some n }
    | none => .error .valueError
  else if name = "tickUpper" ∧ big.isSome then
    match big.bind pyIntOfString with
    | some n => .ok { acc with tick_upper := some n }
    | none => .error .valueError
  else .ok acc

/-- One processed position snapshot (the position_data dict of
process_positions.py, lines 210-234). -/
structure PositionData where
  tokenId : Option String
  token0 : TokenOut
  token1 : TokenOut
  liquidity : Option String
  fee : Option String
  ticks : TickBand
  price_band : PriceBand
  block : Option Int
  timestamp : Option String

/-- The per-record body of the processing loop of
process_positions_with_decimals (process_positions.py, lines 151-236): the
tokenId from the first argument named tokenId, the name-keyed returns, the
18/Unknown decimal fallbacks and the derived price band. Every record
produces an output; nothing is skipped. -/
def process_one_position (token_decimals : PyDict TokenInfo) (call : Call) :
    Except PyErr PositionData := do
  let token_id := match call.Arguments.find? (fun arg => arg.Name = some "tokenId") with
    | some arg => arg.Value.bigInteger
    | none => none
  let acc ← call.Returns.foldlM pos_return_step {}
  let token0_info := dictGetOpt token_decimals acc.token0_address
  let token1_info := dictGetOpt token_decimals acc.token1_address
  let token0_symbol := match token0_info with
    | some info => info.symbol
    | none => some "Unknown"
  let token1_symbol := match token1_info with
    | some info => info.symbol
    | none => some "Unknown"
  let token0_decimals := match token0_info with
    | some info => info.decimals
    | none => 18
  let token1_decimals := match token1_info with
    | some info => info.decimals
    | none => 18
  let price_band : PriceBand :=
    match acc.tick_lower, acc.tick_upper with
    | some tl, some tu =>
      ⟨some (calculate_price_from_tick tl token0_decimals token1_decimals),
       some (calculate_price_from_tick tu token0_decimals token1_decimals)⟩
    | _, _ => ⟨none, none⟩
  return {
      tokenId := token_id
      token0 := ⟨acc.token0_address, token0_symbol, token0_decimals⟩
      token1 := ⟨acc.token1_address, token1_symbol, token1_decimals⟩
      liquidity := acc.liquidity
      fee := acc.fee
      ticks := ⟨acc.tick_lower, acc.tick_upper⟩
      price_band := price_band
      block := call.Block.Number
      timestamp := call.Block.Time }

/-- Models the processing loop of process_positions_with_decimals
(process_positions.py, lines 147-251): every record is processed in order
and appended; an uncaught exception aborts the run. -/
def process_positions_with_decimals (token_decimals : PyDict TokenInfo) :
    List Call → Except PyErr (List PositionData)
  | [] => .ok []
  | call :: rest => do
    let head ← process_one_position token_decimals call
    let tail ← process_positions_with_decimals token_decimals rest
    .ok (head :: tail)

/-- The parameters collected by parse_burn_arguments. -/
structure BurnParams where
  tokenId : Option String := none

/-- Models parse_burn_arguments of process_burn.py (lines 10-22): scan the
arguments for one named tokenId holding a bigInteger value; a later match
overwrites an earlier one. Never raises. -/
def parse_burn_arguments (arguments : List Argument) : BurnParams :=
  arguments.foldl (fun params arg =>
    if arg.Name.getD "" = "tokenId" ∧ arg.Value.bigInteger.isSome then
      { params with tokenId := arg.Value.bigInteger }
    else params) {}

/-- One processed burn event (the event_data dict of process_burn.py, lines
101-115). -/
structure BurnEvent where
  event_type : String
  tokenId : String
  transaction : TransactionMeta
  block : BlockMeta

/-- The per-record body of the processing loop of process_burn_events
(process_burn.py, lines 76-117): parse the tokenId and skip the record when
it is missing or empty. -/
def process_one_burn (call : Call) : Option BurnEvent :=
  let event_type := call.SignatureName.getD "burn"
  let params := parse_burn_arguments call.Arguments
  match params.tokenId with
  | some token_id =>
    if token_id = "" then none
    else some ⟨event_type, token_id, call.Transaction, call.Block⟩
  | none => none

/-- Models the processing loop of process_burn_events (process_burn.py,
lines 72-127): records processed in order, skipped records dropped; the
whole loop is total. -/
def process_burn_events (calls : List Call) : List BurnEvent :=
  calls.filterMap process_one_burn

/-- One extracted creation event (the creator_data dict of
analyze_position_creators.py, lines 69-84). -/
structure CreatorData where
  creator_address : String
  token_id : Option String := none
  token0_address : Option String := none
  token1_address : Option String := none
  fee : Option String := none
  tick_lower : Option Int := none
  tick_upper : Option Int := none
  liquidity : Option String := none
  amount0 : Option String := none
  amount1 : Option String := none
  transaction_hash : Option String := none
  transaction_value_usd : Option String := none
  block_number : Option Int := none
  timestamp : Option String := none

/-- The per-address statistics bucket of analyze_top_creators
(analyze_position_creators.py, lines 95-104). The unique pair set is kept as
an insertion-ordered duplicate-free list; unique_pairs_count is filled by the
finalizing pass. -/
structure CreatorStats where
  total_positions : Nat := 0
  total_liquidity : Int := 0
  total_usd_value : ℚ := 0
  unique_pairs : List String := []
  fee_tiers : PyDict Nat := []
  positions : List CreatorData := []
  first_position_time : Option String := none
  last_position_time : Option String := none
  unique_pairs_count : Nat := 0

/-- Insertion into the unique pair set. -/
def setAdd (l : List String) (x : String) : List String :=
  if x ∈ l then l else l ++ [x]

/-- The mutations of one iteration of the aggregation loop of
analyze_top_creators (analyze_position_creators.py, lines 106-147), one
named function per statement group: the counter, the liquidity and USD
totals with malformed values silently skipped, the pair set, the fee tier
histogram, the event list and the timestamp bounds. Their composition,
creator_stats_step below, is the loop body. -/
def stats_count (stats : CreatorStats) : CreatorStats :=
  { stats with total_positions := stats.total_positions + 1 }

def stats_liquidity (stats : CreatorStats) (creator_data : CreatorData) : CreatorStats :=
  if pyTruthyStr creator_data.liquidity then
    match creator_data.liquidity.bind pyIntOfString with
    | some n => { stats with total_liquidity := stats.total_liquidity + n }
    | none => stats
  else stats

def stats_usd (stats : CreatorStats) (creator_data : CreatorData) : CreatorStats :=
  if pyTruthyStr creator_data.transaction_value_usd then
    match creator_data.transaction_value_usd.bind pyFloatOfString with
    | some v => { stats with total_usd_value := stats.total_usd_value + v }
    | none => stats
  else stats

def stats_pairs (stats : CreatorStats) (creator_data : CreatorData) : CreatorStats :=
  if pyTruthyStr creator_data.token0_address ∧ pyTruthyStr creator_data.token1_address then
    let pair := creator_data.token0_address.getD "" ++ "/" ++ creator_data.token1_address.getD ""
    { stats with unique_pairs := setAdd stats.unique_pairs pair }
  else stats

def stats_fees (stats : CreatorStats) (creator_data : CreatorData) : CreatorStats :=
  if pyTruthyStr creator_data.fee then
    match creator_data.fee with
    | some f =>
      { stats with
        fee_tiers := dictUpsert stats.fee_tiers f ((dictLookup stats.fee_tiers f).getD 0 + 1) }
    | none => stats
  else stats

def stats_events (stats : CreatorStats) (creator_data : CreatorData) : CreatorStats :=
  { stats with positions := stats.positions ++ [creator_data] }

def stats_times (stats : CreatorStats) (creator_data : CreatorData) : CreatorStats :=
  match creator_data.timestamp with
  | some ts =>
    if ts = "" then stats
    else
      { stats with
        first_position_time := match stats.first_position_time with
          | none => some ts
          | some f => if f = "" ∨ ts < f then some ts else some f
        last_position_time := match stats.last_position_time with
          | none => some ts
          | some l => if l = "" ∨ l < ts then some ts else some l }
  | none => stats

def creator_stats_step (stats : CreatorStats) (creator_data : CreatorData) : CreatorStats :=
  stats_times
    (stats_events
      (stats_fees
        (stats_pairs
          (stats_usd
            (stats_liquidity (stats_count stats) creator_data)
            creator_data)
          creator_data)
        creator_data)
      creator_data)
    creator_data

/-- The aggregation loop of analyze_top_creators: a defaultdict keyed by the
creator address, one fresh bucket on first sight. -/
def analyze_creators_loop (creator_stats : PyDict CreatorStats) :
    List CreatorData → PyDict CreatorStats
  | [] => creator_stats
  | creator_data :: rest =>
    let addr := creator_data.creator_address
    let stats := (dictLookup creator_stats addr).getD {}
    analyze_creators_loop (dictUpsert creator_stats addr (creator_stats_step stats creator_data)) rest

/-- The finalizing pass of analyze_top_creators (lines 150-152): the pair set
cardinality is stored; the set-to-list conversion is the identity here. -/
def finalize_creator_stats (s : CreatorStats) : CreatorStats :=
  { s with unique_pairs_count := s.unique_pairs.length }

/-- Models analyze_top_creators of analyze_position_creators.py (lines
91-154). -/
def analyze_top_creators (creators_data : List CreatorData) : PyDict CreatorStats :=
  (analyze_creators_loop [] creators_data).map (fun p => (p.1, finalize_creator_stats p.2))

/-- The four ranked views of rank_creators. -/
structure RankingView where
  by_positions : List (String × CreatorStats)
  by_liquidity : List (String × CreatorStats)
  by_usd_value : List (String × CreatorStats)
  by_unique_pairs : List (String × CreatorStats)

/-- Python sorted with a key and reverse=True: a stable sort descending in
the key. -/
def sortedDesc {α β : Type} [LinearOrder β] (key : α → β) (l : List α) : List α :=
  l.mergeSort (fun x y => decide (key y ≤ key x))

/-- Models rank_creators of analyze_position_creators.py (lines 157-175):
each view is the stable descending sort by its metric cut to the first top_n
entries. -/
def rank_creators (creator_stats : PyDict CreatorStats) (top_n : Nat) : RankingView :=
  let creators_list : List (String × CreatorStats) := creator_stats
  { by_positions := (sortedDesc (fun x => x.2.total_positions) creators_list).take top_n
    by_liquidity := (sortedDesc (fun x => x.2.total_liquidity) creators_list).take top_n
    by_usd_value := (sortedDesc (fun x => x.2.total_usd_value) creators_list).take top_n
    by_unique_pairs := (sortedDesc (fun x => x.2.unique_pairs_count) creators_list).take top_n }

theorem parseNatDigits_shift (cs : List Char) (h : ∀ c ∈ cs, c.isDigit) (a : Nat) :
    cs.foldl (fun acc c =>
      match acc, digitVal c with
      | some n, some d => some (10 * n + d)
      | _, _ => none) (some a) =
    some (cs.foldl (fun acc c => 10 * acc + (c.toNat - 48)) a) := by
  induction cs generalizing a with
  | nil => rfl
  | cons c cs ih =>
    have hc : digitVal c = some (c.toNat - 48) := by
      unfold digitVal
      rw [if_pos (h c (List.mem_cons_self c cs))]
    simp only [List.foldl_cons, hc]
    exact ih (fun x hx => h x (List.mem_cons_of_mem c hx)) _

theorem parseNatDigits_eq_natVal (cs : List Char) (h : ∀ c ∈ cs, c.isDigit) :
    parseNatDigits cs = some (natVal cs) :=
  parseNatDigits_shift cs h 0

theorem natVal_foldl_shift (cs : List Char) (a : Nat) :
    cs.foldl (fun acc c => 10 * acc + (c.toNat - 48)) a =
      a * 10 ^ cs.length + natVal cs := by
  induction cs generalizing a with
  | nil => simp [natVal]
  | cons c cs ih =>
    have h1 : natVal (c :: cs) = (c.toNat - 48) * 10 ^ cs.length + natVal cs := by
      unfold natVal
      simp only [List.foldl_cons]
      rw [ih]
      unfold natVal
      ring
    simp only [List.foldl_cons]
    rw [ih, h1, List.length_cons]
    ring

theorem natVal_eq_ofDigits (cs : List Char) :
    natVal cs = Nat.ofDigits 10 ((cs.map (fun c => c.toNat - 48)).reverse) := by
  induction cs with
  | nil => simp [natVal, Nat.ofDigits]
  | cons c cs ih =>
    have h1 : natVal (c :: cs) = (c.toNat - 48) * 10 ^ cs.length + natVal cs := by
      unfold natVal
      simp only [List.foldl_cons]
      rw [natVal_foldl_shift]
      unfold natVal
      ring
    rw [h1, ih]
    simp only [List.map_cons, List.reverse_cons, Nat.ofDigits_append]
    simp [Nat.ofDigits_singleton, List.length_reverse]
    ring

/-- The non-negative integer a decimal numeral denotes, through the Mathlib
digit semantics, most significant digit first. -/
def decimalValue (s : String) : ℕ :=
  Nat.ofDigits 10 ((s.data.map (fun c => c.toNat - 48)).reverse)

theorem pyIntOfString_digits (s : String) (hne : s.data ≠ [])
    (h : ∀ c ∈ s.data, c.isDigit) :
    pyIntOfString s = some ((decimalValue s : ℕ) : ℤ) := by
  unfold pyIntOfString
  cases hd : s.data with
  | nil => exact absurd hd hne
  | cons c rest =>
    have hcd : c.isDigit := by
      apply h
      rw [hd]
      exact List.mem_cons_self c rest
    have hplus : ¬(c = '+') := by
      intro hc
      rw [hc] at hcd
      exact absurd hcd (by decide)
    have hminus : ¬(c = '-') := by
      intro hc
      rw [hc] at hcd
      exact absurd hcd (by decide)
    dsimp only
    rw [if_neg hplus, if_neg hminus]
    have hall : ∀ x ∈ c :: rest, x.isDigit := by
      intro x hx
      apply h
      rw [hd]
      exact hx
    rw [parseNatDigits_eq_natVal _ hall]
    have hv : natVal (c :: rest) = decimalValue s := by
      rw [natVal_eq_ofDigits]
      unfold decimalValue
      rw [hd]
    rw [hv]
    rfl

/-- C1 (amended): the Amount Normalizer returns int(s) divided by 10 to the
power d for every non-negative d and numeral string s whose quotient stays
below the float range bound; a non-numeric string or a missing (None) amount
gives 0.0 without raising. -/
theorem convert_amount_correct (d : ℕ) (s : String) :
    (s.data ≠ [] → (∀ c ∈ s.data, c.isDigit) →
      (decimalValue s : ℚ) / 10 ^ d < maxFloat →
      convert_amount (some s) (d : ℤ) = .ok ((decimalValue s : ℚ) / 10 ^ d))
    ∧ (pyIntOfString s = none → convert_amount (some s) (d : ℤ) = .ok 0)
    ∧ convert_amount none (d : ℤ) = .ok 0 := by
  refine ⟨?_, ?_, rfl⟩
  · intro hne hdig hbound
    have hp0 := pyIntOfString_digits s hne hdig
    have htn : ((d : ℤ)).toNat = d := Int.toNat_natCast d
    have hq : (((decimalValue s : ℕ) : ℤ) : ℚ) = (decimalValue s : ℚ) := by
      push_cast
      ring
    have hnonneg : (0:ℚ) ≤ (decimalValue s : ℚ) / 10 ^ d :=
      div_nonneg (Nat.cast_nonneg _) (pow_nonneg (by norm_num) d)
    have habs : qAbs ((decimalValue s : ℚ) / 10 ^ d) = (decimalValue s : ℚ) / 10 ^ d := by
      unfold qAbs
      rw [if_neg (not_lt.mpr hnonneg)]
    unfold convert_amount
    rw [Option.some_bind, hp0]
    dsimp only
    rw [if_pos (Int.natCast_nonneg d), htn, hq, habs, if_neg (not_le.mpr hbound)]
  · intro h
    unfold convert_amount
    rw [Option.some_bind, h]

theorem natVal_replicate_zero (n : ℕ) : natVal (List.replicate n '0') = 0 := by
  induction n with
  | zero => rfl
  | succ n ih =>
    unfold natVal at ih ⊢
    rw [List.replicate_succ, List.foldl_cons]
    have hz : 10 * 0 + ('0'.toNat - 48) = 0 := rfl
    rw [hz]
    exact ih

/-- The decimal numeral of 10 to the power 400: a one followed by 400 zeros. -/
def bigNumeral : String := ⟨'1' :: List.replicate 400 '0'⟩

theorem decimalValue_bigNumeral : decimalValue bigNumeral = 10 ^ 400 := by
  have h1 : natVal bigNumeral.data = decimalValue bigNumeral := by
    rw [natVal_eq_ofDigits]
    rfl
  rw [← h1]
  show natVal ('1' :: List.replicate 400 '0') = 10 ^ 400
  unfold natVal
  rw [List.foldl_cons]
  have ho : 10 * 0 + ('1'.toNat - 48) = 1 := rfl
  rw [ho, natVal_foldl_shift, natVal_replicate_zero, List.length_replicate]
  norm_num

theorem bigNumeral_digits : ∀ c ∈ bigNumeral.data, c.isDigit := by
  intro c hc
  rcases List.mem_cons.mp hc with h | h
  · rw [h]; decide
  · rw [List.eq_of_mem_replicate h]; decide

/-- C1 counterexample: on the numeral of 10 to the power 400 with d = 0 the
true division raises an uncaught OverflowError instead of returning the
quotient, so convert_amount does not return int(s) / 10 ** d there. -/
theorem convert_amount_overflow_cex :
    convert_amount (some bigNumeral) 0 = .error .overflow ∧
    convert_amount (some bigNumeral) 0 ≠ .ok ((decimalValue bigNumeral : ℚ) / 10 ^ (0 : ℕ)) := by
  have hne : bigNumeral.data ≠ [] := by
    intro h
    exact List.noConfusion h
  have hp0 := pyIntOfString_digits bigNumeral hne bigNumeral_digits
  have hmain : convert_amount (some bigNumeral) 0 = .error .overflow := by
    unfold convert_amount
    rw [Option.some_bind, hp0]
    dsimp only
    rw [if_pos le_rfl]
    have hq : (((decimalValue bigNumeral : ℕ) : ℤ) : ℚ) / 10 ^ (0:Int).toNat = (10:ℚ) ^ 400 := by
      rw [decimalValue_bigNumeral]
      push_cast
      norm_num
    rw [hq]
    have habs : qAbs ((10:ℚ) ^ 400) = (10:ℚ) ^ 400 := by
      unfold qAbs
      rw [if_neg (not_lt.mpr (by norm_num))]
    rw [habs, if_pos (by norm_num [maxFloat])]
  refine ⟨hmain, ?_⟩
  rw [hmain]
  intro h
  exact Except.noConfusion h

theorem decimalValue_25 : decimalValue "25" = 25 := by decide

/-- C1 witness: the amended statement at the concrete input s = 25, d = 1. -/
theorem convert_amount_correct_witness :
    convert_amount (some "25") ((1 : ℕ) : ℤ) = .ok ((decimalValue "25" : ℚ) / 10 ^ (1 : ℕ)) :=
  (convert_amount_correct 1 "25").1 (by decide) (by decide)
    (by rw [decimalValue_25]; norm_num [maxFloat])

theorem pyFloatPow_base_zero : pyFloatPow (10001 / 10000) 0 = .ok 1 := by
  unfold pyFloatPow
  norm_num [qAbs, maxFloat]

theorem price_from_tick_checked_400 : price_from_tick_checked 0 400 0 = .error .overflow := by
  unfold price_from_tick_checked
  rw [pyFloatPow_base_zero]
  simp only [bind, Except.bind]
  have h2 : pyPow10 ((400:Int) - 0) = .intVal (10 ^ (400:Nat)) := by
    rw [(by norm_num : ((400:Int) - 0) = (400:Int))]
    unfold pyPow10
    rw [if_pos (by norm_num)]
    simp
  rw [h2]
  unfold pyMulFloat
  norm_num [qAbs, maxFloat]

/-- C2 counterexample: at tick 0 with decimal counts 400 and 0 the decimal
adjustment 10 ^ 400 is an int too large for a float; the conversion raises
OverflowError, the handler returns 0.0, and 0.0 differs from 10 ^ (400 - 0). -/
theorem price_from_tick_zero_cex :
    calculate_price_from_tick 0 400 0 = 0 ∧
    calculate_price_from_tick 0 400 0 ≠ (10 : ℚ) ^ ((400 : ℤ) - 0) := by
  have hmain : calculate_price_from_tick 0 400 0 = 0 := by
    unfold calculate_price_from_tick
    rw [price_from_tick_checked_400]
  refine ⟨hmain, ?_⟩
  rw [hmain]
  intro h
  have hpos : (0:ℚ) < (10 : ℚ) ^ ((400 : ℤ) - 0) := by positivity
  rw [← h] at hpos
  exact lt_irrefl 0 hpos

theorem price_from_tick_checked_zero (d0 d1 : Int) (h : d0 - d1 ≤ 308) :
    price_from_tick_checked 0 d0 d1 = .ok ((10 : ℚ) ^ (d0 - d1)) := by
  unfold price_from_tick_checked
  rw [pyFloatPow_base_zero]
  simp only [bind, Except.bind]
  by_cases hk : 0 ≤ d0 - d1
  · have hto : (d0 - d1).toNat ≤ 308 := by omega
    unfold pyPow10
    rw [if_pos hk]
    unfold pyMulFloat
    dsimp only
    have hbound : ((10 ^ (d0 - d1).toNat : ℤ) : ℚ) < maxFloat := by
      push_cast
      calc (10:ℚ) ^ (d0 - d1).toNat ≤ 10 ^ 308 := pow_le_pow_right (by norm_num) hto
        _ < maxFloat := by norm_num [maxFloat]
    have hnn : (0:ℚ) ≤ ((10 ^ (d0 - d1).toNat : ℤ) : ℚ) := by positivity
    have habs : qAbs ((10 ^ (d0 - d1).toNat : ℤ) : ℚ) = ((10 ^ (d0 - d1).toNat : ℤ) : ℚ) := by
      unfold qAbs
      rw [if_neg (not_lt.mpr hnn)]
    rw [habs, if_neg (not_le.mpr hbound)]
    congr 1
    rw [one_mul]
    conv_rhs => rw [show d0 - d1 = ((d0 - d1).toNat : ℤ) from (Int.toNat_of_nonneg hk).symm,
                    zpow_natCast]
    push_cast
    ring
  · push_neg at hk
    unfold pyPow10
    rw [if_neg (not_le.mpr hk)]
    unfold pyMulFloat
    dsimp only
    congr 1
    rw [one_mul]
    conv_rhs => rw [show d0 - d1 = -(((-(d0 - d1)).toNat : ℤ)) from by omega, zpow_neg,
                    zpow_natCast]

/-- C2 (amended): at tick 0 the price equals 10 ^ (d0 - d1) in the exact
model of floats whenever d0 - d1 is at most 308, the largest power of ten
below the float range bound; above it the int-to-float conversion overflows
and the function returns 0.0 instead. -/
theorem calculate_price_from_tick_zero (d0 d1 : Int) (h : d0 - d1 ≤ 308) :
    calculate_price_from_tick 0 d0 d1 = (10 : ℚ) ^ (d0 - d1) := by
  unfold calculate_price_from_tick
  rw [price_from_tick_checked_zero d0 d1 h]

/-- C2 witness: the amended statement at the concrete decimal counts 1 and 0. -/
theorem calculate_price_from_tick_zero_witness :
    calculate_price_from_tick 0 1 0 = (10 : ℚ) ^ ((1 : ℤ) - 0) :=
  calculate_price_from_tick_zero 1 0 (by norm_num)

/-- C3: calculate_price_from_tick is total. Whenever the modelled try body
raises one of the caught errors the function returns 0.0, and on a normal
result it returns that value; in both cases a plain value is returned, so no
exception ever propagates to the caller. -/
theorem calculate_price_from_tick_total (tick d0 d1 : Int) :
    (∀ e, price_from_tick_checked tick d0 d1 = .error e →
      calculate_price_from_tick tick d0 d1 = 0)
    ∧ (∀ v, price_from_tick_checked tick d0 d1 = .ok v →
      calculate_price_from_tick tick d0 d1 = v) := by
  constructor
  · intro e he
    unfold calculate_price_from_tick
    rw [he]
  · intro v hv
    unfold calculate_price_from_tick
    rw [hv]

/-- C3 witness: at tick 0 with decimal counts 400 and 0 the try body raises
OverflowError and the function returns 0.0. -/
theorem calculate_price_from_tick_total_witness :
    calculate_price_from_tick 0 400 0 = 0 :=
  (calculate_price_from_tick_total 0 400 0).1 .overflow price_from_tick_checked_400
theorem optOr_assoc {α : Type} (x y z : Option α) :
    optOr x (optOr y z) = optOr (optOr x y) z := by
  cases x <;> cases y <;> rfl

theorem optOr_none_right {α : Type} (x : Option α) : optOr x none = x := by
  cases x <;> rfl

theorem getLast?_cons_optOr {α : Type} (x : α) (l : List α) :
    (x :: l).getLast? = optOr l.getLast? (some x) := by
  cases l with
  | nil => rfl
  | cons y ys =>
    rw [List.getLast?_cons_cons]
    cases h : (y :: ys).getLast? with
    | none =>
      rw [List.getLast?_eq_none_iff] at h
      exact List.noConfusion h
    | some v => rfl

theorem lastDecimalsEntry_cons (t : TransferEntry) (ts : List TransferEntry) (a : String) :
    lastDecimalsEntry (t :: ts) a =
      optOr (lastDecimalsEntry ts a) (decimalsContribution t a) := by
  unfold lastDecimalsEntry
  rw [List.filterMap_cons]
  cases h : decimalsContribution t a with
  | none => rw [optOr_none_right]
  | some v => exact getLast?_cons_optOr v _

theorem dictLookup_decimals_step (lookup : PyDict TokenInfo) (t : TransferEntry) (a : String)
    (ha : a ≠ "") :
    dictLookup (decimals_lookup_step lookup t) a =
      optOr (decimalsContribution t a) (dictLookup lookup a) := by
  unfold decimals_lookup_step decimalsContribution
  dsimp only
  cases hsc : t.Transfer.Currency.SmartContract with
  | none => rfl
  | some address =>
    cases hdec : t.Transfer.Currency.Decimals with
    | none => rfl
    | some decimals =>
      dsimp only
      by_cases hemp : address = ""
      · rw [if_pos hemp]
        rw [if_neg (by rw [hemp]; exact fun hc => ha hc.symm)]
        rfl
      · rw [if_neg hemp]
        by_cases heq : address = a
        · rw [if_pos heq, heq, dictLookup_upsert_self]
          rfl
        · rw [if_neg heq, dictLookup_upsert_ne _ _ _ _ heq]
          rfl

theorem dictLookup_decimals_loop (ts : List TransferEntry) (acc : PyDict TokenInfo)
    (a : String) (ha : a ≠ "") :
    dictLookup (ts.foldl decimals_lookup_step acc) a =
      optOr (lastDecimalsEntry ts a) (dictLookup acc a) := by
  induction ts generalizing acc with
  | nil =>
    unfold lastDecimalsEntry
    rw [List.filterMap_nil]
    rfl
  | cons t ts ih =>
    rw [List.foldl_cons, ih, lastDecimalsEntry_cons,
        dictLookup_decimals_step _ _ _ ha, optOr_assoc]

/-- C5: the Decimal Resolver output is exactly last-seen-wins — for every
contract identifier the looked-up entry is the {decimals, symbol, name} of
the last record carrying that identifier with a decimal count present,
records without a decimal count contribute nothing, and the empty input
yields the empty map. The construction is a total function, so it never
raises. -/
theorem create_token_decimals_lookup_correct (transfers : List TransferEntry) (a : String)
    (ha : a ≠ "") :
    dictLookup (create_token_decimals_lookup transfers) a = lastDecimalsEntry transfers a
    ∧ create_token_decimals_lookup [] = [] := by
  constructor
  · unfold create_token_decimals_lookup
    rw [dictLookup_decimals_loop transfers [] a ha]
    have hnil : dictLookup ([] : PyDict TokenInfo) a = none := rfl
    rw [hnil, optOr_none_right]
  · rfl

/-- Records for the C5 witness: two entries for the same token, the second
overwriting the first, and one record without a decimal count. -/
def c5TransferA : TransferEntry := ⟨⟨⟨some "0xT", some 6, some "AAA", some "TokenA"⟩⟩⟩

def c5TransferB : TransferEntry := ⟨⟨⟨some "0xT", some 8, some "BBB", some "TokenB"⟩⟩⟩

def c5TransferNoDec : TransferEntry := ⟨⟨⟨some "0xU", none, some "UUU", none⟩⟩⟩

/-- C5 witness: the characterization at a concrete three-record input. -/
theorem create_token_decimals_lookup_correct_witness :
    dictLookup (create_token_decimals_lookup [c5TransferA, c5TransferNoDec, c5TransferB]) "0xT" =
      lastDecimalsEntry [c5TransferA, c5TransferNoDec, c5TransferB] "0xT"
    ∧ create_token_decimals_lookup [] = [] :=
  create_token_decimals_lookup_correct [c5TransferA, c5TransferNoDec, c5TransferB] "0xT"
    (by decide)

/-- A currency record whose Symbol is absent, for the C6 counterexample. -/
def c6Transfer : TransferEntry := ⟨⟨⟨some "0xA", some 6, none, some "TokenA"⟩⟩⟩

def c6Call : Call :=
  { Arguments := []
    Returns := [{ Name := some "token0", Value := { address := some "0xA" } }] }

/-- C6 counterexample: a token entered into the map from a record with no
symbol is stored with symbol None, and the extractor reports None for it —
not the string Unknown. The Unknown default applies only on a lookup miss. -/
theorem position_symbol_unknown_cex :
    dictLookup (create_token_decimals_lookup [c6Transfer]) "0xA" =
      some ⟨6, none, some "TokenA"⟩
    ∧ (process_positions_with_decimals (create_token_decimals_lookup [c6Transfer]) [c6Call]).map
        (fun l => l.map (fun p => p.token0.symbol)) = .ok [none]
    ∧ (none : Option String) ≠ some "Unknown" := by
  refine ⟨rfl, rfl, ?_⟩
  intro h
  exact Option.noConfusion h

/-- C6 (amended): the extractor reports the symbol Unknown exactly for
tokens whose address misses the TokenInfo map; for a token present in the
map it reports the stored symbol unchanged — in particular None, not
Unknown, when the source currency record had no symbol. -/
theorem position_symbol_defaults (td : PyDict TokenInfo) (call : Call) (acc : PosReturnsAcc)
    (res : PositionData)
    (hacc : call.Returns.foldlM pos_return_step {} = .ok acc)
    (hres : process_one_position td call = .ok res) :
    (dictGetOpt td acc.token0_address = none → res.token0.symbol = some "Unknown")
    ∧ (∀ info, dictGetOpt td acc.token0_address = some info → res.token0.symbol = info.symbol) := by
  unfold process_one_position at hres
  rw [hacc] at hres
  simp only [bind, Except.bind, pure, Except.pure] at hres
  injection hres with hres
  subst hres
  constructor
  · intro h
    simp [h]
  · intro info h
    simp [h]

def c6WCall : Call :=
  { Returns := [{ Name := some "token0", Value := { address := some "0xB" } }] }

def c6WResult : PositionData :=
  { tokenId := none
    token0 := ⟨some "0xB", some "Unknown", 18⟩
    token1 := ⟨none, some "Unknown", 18⟩
    liquidity := none
    fee := none
    ticks := ⟨none, none⟩
    price_band := ⟨none, none⟩
    block := none
    timestamp := none }

/-- C6 witness: a token absent from an empty map is reported as Unknown. -/
theorem position_symbol_defaults_witness :
    c6WResult.token0.symbol = some "Unknown" :=
  (position_symbol_defaults [] c6WCall { token0_address := some "0xB" } c6WResult rfl rfl).1 rfl

/-- The C7 record: a Returns entry named liquidity holding the bigInteger
123456789 and no tokenId argument. -/
def c7Call : Call :=
  { Arguments := []
    Returns := [{ Name := some "liquidity", Value := { bigInteger := some "123456789" } }] }

/-- C7: the record with a liquidity return of 123456789 and no tokenId
argument is kept — the output holds exactly one snapshot, with liquidity the
string 123456789 and tokenId None — for any token-decimals map. -/
theorem position_liquidity_no_tokenId (td : PyDict TokenInfo) :
    (process_positions_with_decimals td [c7Call]).map
      (fun l => l.map (fun p => (p.tokenId, p.liquidity))) =
    .ok [((none : Option String), some "123456789")] := rfl

/-- The tokenId value a single burn argument contributes: its bigInteger
when it is named tokenId and carries one. -/
def tokenIdContribution (arg : Argument) : Option String :=
  if arg.Name.getD "" = "tokenId" ∧ arg.Value.bigInteger.isSome then arg.Value.bigInteger
  else none

/-- The tokenId the argument scan of parse_burn_arguments ends with: the
last matching contribution. -/
def lastTokenIdArg (arguments : List Argument) : Option String :=
  (arguments.filterMap tokenIdContribution).getLast?

theorem lastTokenIdArg_cons (a : Argument) (args : List Argument) :
    lastTokenIdArg (a :: args) = optOr (lastTokenIdArg args) (tokenIdContribution a) := by
  unfold lastTokenIdArg
  rw [List.filterMap_cons]
  cases h : tokenIdContribution a with
  | none => rw [optOr_none_right]
  | some v => exact getLast?_cons_optOr v _

theorem burn_step_tokenId (p : BurnParams) (a : Argument) :
    ((if a.Name.getD "" = "tokenId" ∧ a.Value.bigInteger.isSome then
        { p with tokenId := a.Value.bigInteger } else p) : BurnParams).tokenId =
      optOr (tokenIdContribution a) p.tokenId := by
  unfold tokenIdContribution
  by_cases h : a.Name.getD "" = "tokenId" ∧ a.Value.bigInteger.isSome
  · rw [if_pos h, if_pos h]
    cases hb : a.Value.bigInteger with
    | none =>
      rw [hb] at h
      simp at h
    | some v => rfl
  · rw [if_neg h, if_neg h]
    rfl

theorem parse_burn_loop (arguments : List Argument) (p : BurnParams) :
    (arguments.foldl (fun params arg =>
      if arg.Name.getD "" = "tokenId" ∧ arg.Value.bigInteger.isSome then
        { params with tokenId := arg.Value.bigInteger }
      else params) p).tokenId = optOr (lastTokenIdArg arguments) p.tokenId := by
  induction arguments generalizing p with
  | nil =>
    unfold lastTokenIdArg
    rw [List.filterMap_nil]
    rfl
  | cons a args ih =>
    rw [List.foldl_cons, ih, lastTokenIdArg_cons]
    rw [burn_step_tokenId, optOr_assoc]

theorem parse_burn_arguments_eq_last (arguments : List Argument) :
    (parse_burn_arguments arguments).tokenId = lastTokenIdArg arguments := by
  unfold parse_burn_arguments
  rw [parse_burn_loop]
  cases h : lastTokenIdArg arguments <;> rfl

/-- C10: burn processing extracts the token id by scanning the arguments for
one named tokenId holding a bigInteger (the last match winning); a record
with no such non-empty token id is dropped while the records around it are
processed unchanged; and every emitted burn event carries a non-empty
tokenId. -/
theorem process_burn_events_spec :
    (∀ (pre post : List Call) (call : Call),
      ((parse_burn_arguments call.Arguments).tokenId = none ∨
       (parse_burn_arguments call.Arguments).tokenId = some "") →
      process_burn_events (pre ++ call :: post) = process_burn_events (pre ++ post))
    ∧ (∀ (arguments : List Argument),
        (parse_burn_arguments arguments).tokenId = lastTokenIdArg arguments)
    ∧ (∀ (calls : List Call) (e : BurnEvent), e ∈ process_burn_events calls → e.tokenId ≠ "") := by
  refine ⟨?_, parse_burn_arguments_eq_last, ?_⟩
  · intro pre post call h
    have hnone : process_one_burn call = none := by
      unfold process_one_burn
      dsimp only
      rcases h with h | h
      · rw [h]
      · rw [h]
        dsimp only
        rw [if_pos rfl]
    unfold process_burn_events
    simp [List.filterMap_append, List.filterMap_cons, hnone]
  · intro calls e he
    unfold process_burn_events at he
    rw [List.mem_filterMap] at he
    obtain ⟨call, _, hcall⟩ := he
    unfold process_one_burn at hcall
    dsimp only at hcall
    cases htid : (parse_burn_arguments call.Arguments).tokenId with
    | none =>
      rw [htid] at hcall
      exact Option.noConfusion hcall
    | some t =>
      rw [htid] at hcall
      dsimp only at hcall
      by_cases ht : t = ""
      · rw [if_pos ht] at hcall
        exact Option.noConfusion hcall
      · rw [if_neg ht] at hcall
        injection hcall with hcall
        rw [← hcall]
        exact ht

/-- A burn record with no arguments at all, for the C10 witness. -/
def c10Call : Call := { Arguments := [] }

/-- C10 witness: a record without a tokenId argument is dropped. -/
theorem process_burn_events_spec_witness :
    process_burn_events ([] ++ c10Call :: []) = process_burn_events ([] ++ []) :=
  process_burn_events_spec.1 [] [] c10Call (Or.inl rfl)

theorem mint_arg_step_token0 (p : MintParams) (a : Argument) (p1 : MintParams)
    (hidx : a.Index.getD (-1) ≠ 0) (hstep : mint_arg_step p a = .ok p1) :
    p1.token0 = p.token0 := by
  unfold mint_arg_step at hstep
  dsimp only at hstep
  have hnc0 : ¬(a.Index.getD (-1) = 0 ∧ a.Value.address.isSome = true) :=
    fun hc => hidx hc.1
  rw [if_neg hnc0] at hstep
  by_cases h1 : a.Index.getD (-1) = 1 ∧ a.Value.address.isSome = true
  · rw [if_pos h1] at hstep
    injection hstep with h
    rw [← h]
  · rw [if_neg h1] at hstep
    by_cases h2 : a.Index.getD (-1) = 2 ∧ a.Value.bigInteger.isSome = true
    · rw [if_pos h2] at hstep
      injection hstep with h
      rw [← h]
    · rw [if_neg h2] at hstep
      by_cases h3 : a.Index.getD (-1) = 3 ∧ a.Value.bigInteger.isSome = true
      · rw [if_pos h3] at hstep
        cases hm3 : a.Value.bigInteger.bind pyIntOfString with
        | some n =>
          rw [hm3] at hstep
          dsimp only at hstep
          injection hstep with h
          rw [← h]
        | none =>
          rw [hm3] at hstep
          dsimp only at hstep
          exact Except.noConfusion hstep
      · rw [if_neg h3] at hstep
        by_cases h4 : a.Index.getD (-1) = 4 ∧ a.Value.bigInteger.isSome = true
        · rw [if_pos h4] at hstep
          cases hm4 : a.Value.bigInteger.bind pyIntOfString with
          | some n =>
            rw [hm4] at hstep
            dsimp only at hstep
            injection hstep with h
            rw [← h]
          | none =>
            rw [hm4] at hstep
            dsimp only at hstep
            exact Except.noConfusion hstep
        · rw [if_neg h4] at hstep
          by_cases h5 : a.Index.getD (-1) = 5 ∧ a.Value.bigInteger.isSome = true
          · rw [if_pos h5] at hstep
            injection hstep with h
            rw [← h]
          · rw [if_neg h5] at hstep
            by_cases h6 : a.Index.getD (-1) = 6 ∧ a.Value.bigInteger.isSome = true
            · rw [if_pos h6] at hstep
              injection hstep with h
              rw [← h]
            · rw [if_neg h6] at hstep
              by_cases h7 : a.Index.getD (-1) = 7 ∧ a.Value.bigInteger.isSome = true
              · rw [if_pos h7] at hstep
                injection hstep with h
                rw [← h]
              · rw [if_neg h7] at hstep
                by_cases h8 : a.Index.getD (-1) = 8 ∧ a.Value.bigInteger.isSome = true
                · rw [if_pos h8] at hstep
                  injection hstep with h
                  rw [← h]
                · rw [if_neg h8] at hstep
                  by_cases h9 : a.Index.getD (-1) = 9 ∧ a.Value.address.isSome = true
                  · rw [if_pos h9] at hstep
                    injection hstep with h
                    rw [← h]
                  · rw [if_neg h9] at hstep
                    by_cases h10 : a.Index.getD (-1) = 10 ∧ a.Value.bigInteger.isSome = true
                    · rw [if_pos h10] at hstep
                      injection hstep with h
                      rw [← h]
                    · rw [if_neg h10] at hstep
                      injection hstep with h
                      rw [← h]

theorem parse_mint_token0_none (arguments : List Argument) (p0 res : MintParams)
    (h : ∀ arg ∈ arguments, arg.Index.getD (-1) ≠ 0)
    (hres : arguments.foldlM mint_arg_step p0 = .ok res) :
    res.token0 = p0.token0 := by
  induction arguments generalizing p0 with
  | nil =>
    injection hres with hres
    rw [← hres]
  | cons a args ih =>
    rw [List.foldlM_cons] at hres
    cases hstep : mint_arg_step p0 a with
    | error e =>
      rw [hstep] at hres
      simp only [bind, Except.bind] at hres
      exact Except.noConfusion hres
    | ok p1 =>
      rw [hstep] at hres
      simp only [bind, Except.bind] at hres
      have h1 : p1.token0 = p0.token0 :=
        mint_arg_step_token0 p0 a p1 (h a (List.mem_cons_self a args)) hstep
      rw [← h1]
      exact ih p1 (fun arg ha => h arg (List.mem_cons_of_mem a ha)) hres

theorem process_one_mint_skip (td : PyDict TokenInfo) (call : Call) (p : MintParams)
    (hp : parse_mint_burn_arguments call.Arguments = .ok p)
    (h : p.token0 = none ∨ p.token1 = none) :
    process_one_mint td call = .ok none := by
  unfold process_one_mint
  rw [hp]
  simp only [bind, Except.bind]
  have hcond : pyTruthyStr p.token0 = false ∨ pyTruthyStr p.token1 = false := by
    rcases h with h | h
    · left
      rw [h]
      rfl
    · right
      rw [h]
      rfl
  rw [if_pos hcond]
  rfl

theorem process_mint_cons (td : PyDict TokenInfo) (call : Call) (rest : List Call) :
    process_mint_events_with_decimals td (call :: rest) =
      (process_one_mint td call).bind (fun head =>
        (process_mint_events_with_decimals td rest).bind (fun tail =>
          match head with
          | some event => Except.ok (event :: tail)
          | none => Except.ok tail)) := rfl

/-- C4: a mint/burn-shaped record whose parsed parameters are missing a
token address — in particular one with no argument at index 0, which leaves
token0 unset — is excluded from the processed output entirely, and the
records before and after it are processed exactly as if it were absent. The
hypothesis that the arguments parse is the well-formedness of the record
shape (its tick big-integers, when present, are integer numerals). -/
theorem process_mint_missing_token_dropped (td : PyDict TokenInfo)
    (pre post : List Call) (call : Call) (p : MintParams)
    (hp : parse_mint_burn_arguments call.Arguments = .ok p) :
    ((p.token0 = none ∨ p.token1 = none) →
      process_mint_events_with_decimals td (pre ++ call :: post) =
        process_mint_events_with_decimals td (pre ++ post))
    ∧ ((∀ arg ∈ call.Arguments, arg.Index.getD (-1) ≠ 0) → p.token0 = none) := by
  constructor
  · intro h
    induction pre with
    | nil =>
      have hskip := process_one_mint_skip td call p hp h
      rw [List.nil_append, List.nil_append, process_mint_cons, hskip]
      show ((process_mint_events_with_decimals td post).bind fun tail => Except.ok tail) = _
      cases hpost : process_mint_events_with_decimals td post with
      | error e => rfl
      | ok l => rfl
    | cons x pre ih =>
      rw [List.cons_append, List.cons_append, process_mint_cons td x (pre ++ call :: post),
          process_mint_cons td x (pre ++ post), ih]
  · intro h
    have := parse_mint_token0_none call.Arguments {} p h hp
    rw [this]

/-- A mint record with no arguments at all, for the C4 witness. -/
def c4Call : Call := { Arguments := [] }

/-- C4 witness: the no-argument record is dropped and its token0 is unset. -/
theorem process_mint_missing_token_dropped_witness :
    process_mint_events_with_decimals [] ([] ++ c4Call :: []) =
      process_mint_events_with_decimals [] ([] ++ [])
    ∧ ({} : MintParams).token0 = none :=
  ⟨(process_mint_missing_token_dropped [] [] [] c4Call {} rfl).1 (Or.inl rfl),
   (process_mint_missing_token_dropped [] [] [] c4Call {} rfl).2
     (fun arg ha => absurd ha (List.not_mem_nil arg))⟩

theorem stats_liquidity_positions (s : CreatorStats) (e : CreatorData) :
    (stats_liquidity s e).total_positions = s.total_positions := by
  unfold stats_liquidity
  split
  · split <;> rfl
  · rfl

theorem stats_usd_positions (s : CreatorStats) (e : CreatorData) :
    (stats_usd s e).total_positions = s.total_positions := by
  unfold stats_usd
  split
  · split <;> rfl
  · rfl

theorem stats_pairs_positions (s : CreatorStats) (e : CreatorData) :
    (stats_pairs s e).total_positions = s.total_positions := by
  unfold stats_pairs
  split <;> rfl

theorem stats_fees_positions (s : CreatorStats) (e : CreatorData) :
    (stats_fees s e).total_positions = s.total_positions := by
  unfold stats_fees
  split
  · split <;> rfl
  · rfl

theorem stats_times_positions (s : CreatorStats) (e : CreatorData) :
    (stats_times s e).total_positions = s.total_positions := by
  unfold stats_times
  split
  · split <;> rfl
  · rfl

theorem stats_events_positions (s : CreatorStats) (e : CreatorData) :
    (stats_events s e).total_positions = s.total_positions := rfl

theorem creator_stats_step_positions (s : CreatorStats) (e : CreatorData) :
    (creator_stats_step s e).total_positions = s.total_positions + 1 := by
  unfold creator_stats_step
  rw [stats_times_positions, stats_events_positions, stats_fees_positions,
      stats_pairs_positions, stats_usd_positions, stats_liquidity_positions]
  rfl

theorem analyze_creators_loop_cons (acc : PyDict CreatorStats) (e : CreatorData)
    (evs : List CreatorData) :
    analyze_creators_loop acc (e :: evs) =
      analyze_creators_loop
        (dictUpsert acc e.creator_address
          (creator_stats_step ((dictLookup acc e.creator_address).getD {}) e)) evs := rfl

theorem analyze_loop_positions (evs : List CreatorData) (a : String)
    (hall : ∀ e ∈ evs, e.creator_address = a) (hne : evs ≠ []) :
    ∀ acc : PyDict CreatorStats,
      (dictLookup (analyze_creators_loop acc evs) a).map CreatorStats.total_positions =
        some (((dictLookup acc a).getD {}).total_positions + evs.length) := by
  induction evs with
  | nil => exact absurd rfl hne
  | cons e evs ih =>
    intro acc
    have hea : e.creator_address = a := hall e (List.mem_cons_self e evs)
    rw [analyze_creators_loop_cons, hea]
    by_cases hnil : evs = []
    · subst hnil
      have hloop : analyze_creators_loop
          (dictUpsert acc a (creator_stats_step ((dictLookup acc a).getD {}) e)) [] =
          dictUpsert acc a (creator_stats_step ((dictLookup acc a).getD {}) e) := rfl
      rw [hloop, dictLookup_upsert_self]
      simp only [Option.map]
      rw [creator_stats_step_positions]
      rfl
    · have := ih (fun x hx => hall x (List.mem_cons_of_mem e hx)) hnil
        (dictUpsert acc a (creator_stats_step ((dictLookup acc a).getD {}) e))
      rw [this, dictLookup_upsert_self]
      simp only [Option.getD_some]
      rw [creator_stats_step_positions]
      have hlen : (e :: evs).length = evs.length + 1 := rfl
      rw [hlen]
      congr 1
      omega

theorem dictKeys_upsert_nodup {α : Type} (m : PyDict α) (k : String) (v : α)
    (h : (dictKeys m).Nodup) : (dictKeys (dictUpsert m k v)).Nodup := by
  rw [dictKeys_upsert]
  by_cases hs : (dictLookup m k).isSome
  · rw [if_pos hs]
    exact h
  · rw [if_neg hs]
    have hk : k ∉ dictKeys m :=
      (dictLookup_eq_none_iff m k).mp (Option.not_isSome_iff_eq_none.mp hs)
    simp [List.nodup_append, h, hk]

theorem dictKeys_upsert_toFinset {α : Type} (m : PyDict α) (k : String) (v : α) :
    (dictKeys (dictUpsert m k v)).toFinset = insert k (dictKeys m).toFinset := by
  rw [dictKeys_upsert]
  by_cases hs : (dictLookup m k).isSome
  · rw [if_pos hs]
    have hk : k ∈ dictKeys m := by
      by_contra hnk
      rw [← dictLookup_eq_none_iff] at hnk
      rw [hnk] at hs
      simp at hs
    rw [Finset.insert_eq_self.mpr (List.mem_toFinset.mpr hk)]
  · rw [if_neg hs]
    rw [List.toFinset_append]
    simp [Finset.insert_eq, Finset.union_comm]

theorem analyze_loop_keys (evs : List CreatorData) :
    ∀ acc : PyDict CreatorStats, (dictKeys acc).Nodup →
      (dictKeys (analyze_creators_loop acc evs)).Nodup ∧
      (dictKeys (analyze_creators_loop acc evs)).toFinset =
        (dictKeys acc).toFinset ∪ (evs.map CreatorData.creator_address).toFinset := by
  induction evs with
  | nil =>
    intro acc h
    refine ⟨h, ?_⟩
    rw [show analyze_creators_loop acc [] = acc from rfl]
    simp
  | cons e evs ih =>
    intro acc h
    rw [analyze_creators_loop_cons]
    obtain ⟨h1, h2⟩ := ih _ (dictKeys_upsert_nodup _ _ _ h)
    refine ⟨h1, ?_⟩
    rw [h2, dictKeys_upsert_toFinset]
    rw [List.map_cons, List.toFinset_cons]
    ext x
    simp only [Finset.mem_insert, Finset.mem_union]
    tauto

theorem dictLookup_map_values {α β : Type} (f : α → β) (m : PyDict α) (k : String) :
    dictLookup (m.map (fun p => (p.1, f p.2))) k = (dictLookup m k).map f := by
  induction m with
  | nil => rfl
  | cons p m ih =>
    by_cases h : p.1 = k
    · simp [dictLookup, h]
    · simp [dictLookup, h, ih]

/-- C8: aggregating a nonempty batch whose events all come from one address
yields total_positions equal to the batch length for that address, and in
general the result map has exactly one key per distinct originating address
of the batch. -/
theorem analyze_top_creators_spec (creators_data : List CreatorData) :
    (∀ a, creators_data ≠ [] → (∀ e ∈ creators_data, e.creator_address = a) →
      (dictLookup (analyze_top_creators creators_data) a).map CreatorStats.total_positions =
        some creators_data.length)
    ∧ (analyze_top_creators creators_data).length =
        (creators_data.map CreatorData.creator_address).toFinset.card := by
  constructor
  · intro a hne hall
    unfold analyze_top_creators
    rw [dictLookup_map_values, Option.map_map]
    have hcomp : CreatorStats.total_positions ∘ finalize_creator_stats =
        CreatorStats.total_positions := by
      funext s
      rfl
    rw [hcomp, analyze_loop_positions creators_data a hall hne []]
    simp [dictLookup]
  · unfold analyze_top_creators
    rw [List.length_map]
    obtain ⟨hnd, hfin⟩ := analyze_loop_keys creators_data [] (by simp [dictKeys])
    have hlen : (dictKeys (analyze_creators_loop [] creators_data)).length =
        (analyze_creators_loop [] creators_data).length := List.length_map _ _
    calc (analyze_creators_loop [] creators_data).length
        = (dictKeys (analyze_creators_loop [] creators_data)).length := hlen.symm
      _ = (dictKeys (analyze_creators_loop [] creators_data)).toFinset.card :=
          (List.toFinset_card_of_nodup hnd).symm
      _ = (creators_data.map CreatorData.creator_address).toFinset.card := by
          rw [hfin]
          simp [dictKeys]

/-- A creation event from one fixed address, for the C8 witness. -/
def c8EventX : CreatorData := { creator_address := "0xX" }

/-- C8 witness: two events from the same address give total_positions 2 and
one key. -/
theorem analyze_top_creators_spec_witness :
    (dictLookup (analyze_top_creators [c8EventX, c8EventX]) "0xX").map
      CreatorStats.total_positions = some ([c8EventX, c8EventX] : List CreatorData).length
    ∧ (analyze_top_creators [c8EventX, c8EventX]).length =
        ([c8EventX, c8EventX].map CreatorData.creator_address).toFinset.card :=
  ⟨(analyze_top_creators_spec [c8EventX, c8EventX]).1 "0xX"
      (by intro h; exact List.noConfusion h)
      (by
        intro e he
        rcases List.mem_cons.mp he with h | h
        · rw [h]
          rfl
        · rcases List.mem_cons.mp h with h2 | h2
          · rw [h2]
            rfl
          · exact absurd h2 (List.not_mem_nil e)),
   (analyze_top_creators_spec [c8EventX, c8EventX]).2⟩

theorem sortedDesc_pairwise {α β : Type} [LinearOrder β] (key : α → β) (l : List α) :
    (sortedDesc key l).Pairwise (fun x y => key y ≤ key x) := by
  unfold sortedDesc
  have h := @List.sorted_mergeSort _ (fun x y => decide (key y ≤ key x))
    (fun a b c hab hbc =>
      decide_eq_true (le_trans (of_decide_eq_true hbc) (of_decide_eq_true hab)))
    (fun a b => by
      rcases le_total (key b) (key a) with h | h
      · simp [h]
      · simp [h]) l
  exact h.imp (fun hab => of_decide_eq_true hab)

theorem sortedDesc_length {α β : Type} [LinearOrder β] (key : α → β) (l : List α) :
    (sortedDesc key l).length = l.length := by
  unfold sortedDesc
  exact List.length_mergeSort l

theorem sortedDesc_perm {α β : Type} [LinearOrder β] (key : α → β) (l : List α) :
    (sortedDesc key l).Perm l := by
  unfold sortedDesc
  exact List.mergeSort_perm l _

/-- What the Ranker promises for one metric view: at most min(top_n, number
of addresses) entries, descending metric values, and the whole stable sort —
a permutation of the input — when top_n covers everything. -/
def RankedBy {β : Type} [LinearOrder β] (creator_stats : PyDict CreatorStats) (top_n : Nat)
    (metric : CreatorStats → β) (view : List (String × CreatorStats)) : Prop :=
  view.length ≤ min top_n creator_stats.length
  ∧ view.Pairwise (fun x y => metric y.2 ≤ metric x.2)
  ∧ (creator_stats.length ≤ top_n → view.Perm creator_stats)

theorem rank_take_spec {β : Type} [LinearOrder β] (stats : PyDict CreatorStats) (top_n : Nat)
    (metric : CreatorStats → β) :
    RankedBy stats top_n metric ((sortedDesc (fun x => metric x.2) stats).take top_n) := by
  unfold RankedBy
  refine ⟨?_, ?_, ?_⟩
  · rw [List.length_take, sortedDesc_length]
  · exact List.Pairwise.sublist (List.take_sublist top_n _) (sortedDesc_pairwise _ stats)
  · intro hle
    rw [List.take_of_length_le (by rw [sortedDesc_length]; exact hle)]
    exact sortedDesc_perm _ stats

/-- C9: for every stats map and positive top_n each of the four ranked views
holds at most min(top_n, number of addresses) entries, each entry's metric
value at least the next entry's, and a top_n at least the number of
addresses returns all of them (the view is a permutation of the whole map),
not an error. -/
theorem rank_creators_spec (creator_stats : PyDict CreatorStats) (top_n : Nat)
    (hpos : 0 < top_n) :
    RankedBy creator_stats top_n CreatorStats.total_positions
      (rank_creators creator_stats top_n).by_positions
    ∧ RankedBy creator_stats top_n CreatorStats.total_liquidity
      (rank_creators creator_stats top_n).by_liquidity
    ∧ RankedBy creator_stats top_n CreatorStats.total_usd_value
      (rank_creators creator_stats top_n).by_usd_value
    ∧ RankedBy creator_stats top_n CreatorStats.unique_pairs_count
      (rank_creators creator_stats top_n).by_unique_pairs :=
  ⟨rank_take_spec creator_stats top_n CreatorStats.total_positions,
   rank_take_spec creator_stats top_n CreatorStats.total_liquidity,
   rank_take_spec creator_stats top_n CreatorStats.total_usd_value,
   rank_take_spec creator_stats top_n CreatorStats.unique_pairs_count⟩

/-- Two-address stats map for the C9 witness. -/
def c9Stats : PyDict CreatorStats := [("0xA", {}), ("0xB", { total_positions := 3 })]

/-- C9 witness: the ranking guarantees at the concrete two-address map with
top_n = 1. -/
theorem rank_creators_spec_witness :
    RankedBy c9Stats 1 CreatorStats.total_positions (rank_creators c9Stats 1).by_positions
    ∧ RankedBy c9Stats 1 CreatorStats.total_liquidity (rank_creators c9Stats 1).by_liquidity
    ∧ RankedBy c9Stats 1 CreatorStats.total_usd_value (rank_creators c9Stats 1).by_usd_value
    ∧ RankedBy c9Stats 1 CreatorStats.unique_pairs_count
      (rank_creators c9Stats 1).by_unique_pairs :=
  rank_creators_spec c9Stats 1 (by norm_num)

